import Mathlib

/- Shallow embedding of the simple-rustc interpreter core
   (src/ast.rs and src/interpreter.rs).

   Representation notes:
   - Rust panics are modelled with Option: none is a panic (process abort),
     some r is a normal return carrying the Result and the mutated context.
   - Rust i32 values are modelled as unbounded Int. Division and remainder
     truncate toward zero (Int.tdiv / Int.tmod), as in Rust, and panic (none)
     when the divisor is 0. Rust additionally panics on i32 overflow
     (e.g. i32::MIN / -1); no claim exercises overflow and it is not modelled.
   - The Rust Context is Vec<Scope> with the innermost scope LAST; here a
     Context is List Scope with the innermost scope FIRST, so Vec::last_mut,
     Vec::pop and .iter().rev() become head access, List.tail and plain
     head-to-tail traversal.
   - HashMap<Value, Value> is modelled as an association list without duplicate
     keys: insert replaces an existing binding in place, get returns the first
     (only) binding of the key.
   - The Block type used by eval_block and eval_if is not defined under src/;
     per Function.block (ast.rs) and the iteration `for e in block` it is
     Vec<Expr>, modelled as List Expr.
-/

namespace SimpleRustc

/-- ast.rs MathToken. -/
inductive MathToken
  | minus
  | plus
  | multiply
  | division
  | modulo
deriving DecidableEq

/-- ast.rs BoolToken; the source comments mark Not as unimplemented
("implementation neeeded"). -/
inductive BoolToken
  | and
  | or
  | not
deriving DecidableEq

/-- ast.rs RelToken. -/
inductive RelToken
  | leq
  | geq
  | equal
  | neq
deriving DecidableEq

/-- ast.rs VarToken. -/
inductive VarToken
  | assign
  | plusEq
  | minEq
  | mulEq
deriving DecidableEq

/-- ast.rs Op. -/
inductive Op
  | mathOp (t : MathToken)
  | boolOp (t : BoolToken)
  | relOp (t : RelToken)
  | varOp (t : VarToken)
deriving DecidableEq

/-- ast.rs Type (renamed: Type is a Lean keyword). -/
inductive Ty
  | int32
  | bool
  | void
deriving DecidableEq

/-- ast.rs Param: a parameter name with its declared type. -/
structure Param where
  name : String
  paramType : Ty
deriving DecidableEq

/-- ast.rs Value: runtime values of the evaluator. -/
inductive Value
  | num (i : Int)
  | var (s : String)
  | bool (b : Bool)
deriving DecidableEq

/-- ast.rs Expr. The Function struct carried by Expr::Func is inlined into the
func constructor (name, params, block, return type) because Lean structures
cannot be mutually recursive with this inductive. -/
inductive Expr
  | binOp (l : Expr) (op : Op) (r : Expr)
  | num (n : Int)
  | var (s : String)
  | bool (b : Bool)
  | letE (v : Expr) (ty : Ty) (e : Expr)
  | varOp (v : Expr) (op : Op) (e : Expr)
  | ifE (c : Expr) (block : List Expr)
  | ifElse (c : Expr) (block : List Expr)
  | whileE (c : Expr) (block : List Expr)
  | func (name : String) (params : List Param) (block : List Expr) (returnType : Ty)
  | ret (e : Expr)

/-- ast.rs, impl From<Expr> for i32: returns the payload of Num and panics
(none) on every other node. -/
def i32_from_expr : Expr → Option Int
  | .num i => some i
  | _ => none

/-- ast.rs, impl From<Expr> for String: returns the payload of Var and panics
(none) on every other node. -/
def string_from_expr : Expr → Option String
  | .var s => some s
  | _ => none

/-- ast.rs, impl From<Expr> for bool: returns the payload of Bool and panics
(none) on every other node. -/
def bool_from_expr : Expr → Option Bool
  | .bool b => some b
  | _ => none

/-- Modelled from the spec: the conversion from a runtime Value to an integer
used by eval_var_op (interpreter.rs lines 153-154, `i32::from(...)` applied to
a Value) is repository code that is not under src/. The call site types it as
infallible (a plain i32, no Result), and §4.1 of the spec describes the
source's conversions as crash-on-mismatch behavior (its fallible TypeMismatch
conversion "replaces any crash-on-mismatch behavior"), exactly like the
sibling From<Expr> conversions in ast.rs. So the missing conversion returns
the payload of Num and panics (none) on every other value. -/
def i32_from_value : Value → Option Int
  | .num i => some i
  | _ => none

/-- interpreter.rs: type Scope = HashMap<Value, Value>. -/
abbrev Scope := List (Value × Value)

/-- interpreter.rs: type Context = Vec<Scope>, a stack of scopes
(innermost first in this embedding). -/
abbrev Context := List Scope

/-- interpreter.rs EvalErr. -/
inductive EvalErr
  | notFound (s : String)
  | notImplemented
  | typeMismatch (s : String)
  | wrongOp (s : String)
  | wrongType (s : String)
deriving DecidableEq

/-- interpreter.rs: type EvalRes<T> = Result<T, EvalErr>. -/
abbrev EvalRes (α : Type) := Except EvalErr α

/-- HashMap::get on a Scope. -/
def scope_get : Scope → Value → Option Value
  | [], _ => none
  | (k, v) :: rest, key => if k = key then some v else scope_get rest key

/-- HashMap::insert on a Scope: replaces the binding in place when the key is
present, otherwise adds a new binding. -/
def scope_insert (key val : Value) : Scope → Scope
  | [] => [(key, val)]
  | (k, v) :: rest =>
    if k = key then (key, val) :: rest else (k, v) :: scope_insert key val rest

/-- interpreter.rs ContextMethods::update_var: walks the scopes from the
innermost outward; on the first scope containing the key, inserts the new
value there and returns Ok(val); returns Err(NotFound) when no scope
contains the key. -/
def update_var : Context → Value → Value → EvalRes Value × Context
  | [], _, _ => (.error (.notFound "Value not found in context."), [])
  | s :: rest, key, val =>
    match scope_get s key with
    | some _ => (.ok val, scope_insert key val s :: rest)
    | none =>
      match update_var rest key val with
      | (r, rest') => (r, s :: rest')

/-- interpreter.rs ContextMethods::drop_current_scope: Vec::pop, a no-op on an
empty context. -/
def drop_current_scope (context : Context) : Context :=
  context.tail

/-- interpreter.rs ContextMethods::get_val: walks the scopes from the
innermost outward, returning the first binding of the key; Err(NotFound) when
no scope contains it. -/
def get_val : Context → Value → EvalRes Value
  | [], _ => .error (.notFound "Key not found in context scopes")
  | s :: rest, key =>
    match scope_get s key with
    | some v => .ok v
    | none => get_val rest key

/-- interpreter.rs ContextMethods::insert_to_current_scope: inserts into the
innermost scope; panics (none) when the context has no scopes
("There are no scopes in the context."). -/
def insert_to_current_scope (context : Context) (key val : Value) : Option Context :=
  match context with
  | [] => none
  | s :: rest => some (scope_insert key val s :: rest)

/-- interpreter.rs ContextMethods::new_scope: pushes a fresh empty scope. -/
def new_scope (context : Context) : Context :=
  ([] : Scope) :: context

/-- interpreter.rs eval_i32_expr. Rust integer division and remainder truncate
toward zero (Int.tdiv / Int.tmod) and panic when the divisor is 0, modelled as
none; EvalErr has no division-by-zero variant. Note that the source maps Geq
to the strict > and Leq to the strict <. -/
def eval_i32_expr (l : Int) (op : Op) (r : Int) : Option (EvalRes Value) :=
  match op with
  | .mathOp .division => if r = 0 then none else some (.ok (.num (l.tdiv r)))
  | .mathOp .multiply => some (.ok (.num (l * r)))
  | .mathOp .plus => some (.ok (.num (l + r)))
  | .mathOp .minus => some (.ok (.num (l - r)))
  | .mathOp .modulo => if r = 0 then none else some (.ok (.num (l.tmod r)))
  | .relOp .equal => some (.ok (.bool (decide (l = r))))
  | .relOp .geq => some (.ok (.bool (decide (l > r))))
  | .relOp .leq => some (.ok (.bool (decide (l < r))))
  | .relOp .neq => some (.ok (.bool (decide (l ≠ r))))
  | _ => some (.error (.wrongOp "Not an i32 operator."))

/-- interpreter.rs eval_bool_expr. Rust orders bool with false < true, so
l > r is l && !r and l < r is !l && r. BoolToken::Not falls into the
catch-all and yields WrongOp. -/
def eval_bool_expr (l : Bool) (op : Op) (r : Bool) : EvalRes Value :=
  match op with
  | .boolOp .and => .ok (.bool (l && r))
  | .boolOp .or => .ok (.bool (l || r))
  | .relOp .equal => .ok (.bool (l == r))
  | .relOp .geq => .ok (.bool (l && !r))
  | .relOp .leq => .ok (.bool (!l && r))
  | .relOp .neq => .ok (.bool (l != r))
  | _ => .error (.wrongOp "Not a boolean operator.")

/-- interpreter.rs eval_var_op: reads the current bound value via get_val (the
? propagates its error), converts both the current and the new value to i32
(panicking on a non-Num value, see i32_from_value), combines per the token and
writes the result back with update_var. -/
def eval_var_op (key : Value) (op : Op) (new_val : Value) (context : Context) :
    Option (EvalRes Value × Context) :=
  match get_val context key with
  | .error e => some (.error e, context)
  | .ok v =>
    match i32_from_value v with
    | none => none
    | some old_val =>
      match i32_from_value new_val with
      | none => none
      | some expr_val =>
        match op with
        | .varOp .plusEq => some (update_var context key (.num (old_val + expr_val)))
        | .varOp .minEq => some (update_var context key (.num (old_val - expr_val)))
        | .varOp .mulEq => some (update_var context key (.num (old_val * expr_val)))
        | _ => some (.error (.wrongOp "Not a variable operator."), context)

mutual

/-- interpreter.rs eval_expr: dispatch on the node. Unhandled nodes
(ifElse, while, func, return) yield NotImplemented. -/
def eval_expr : Expr → Context → Option (EvalRes Value × Context)
  | .num n, context => some (.ok (.num n), context)
  | .bool b, context => some (.ok (.bool b), context)
  | .var s, context => some (get_val context (.var s), context)
  | .binOp l op r, context => eval_bin_expr l op r context
  | .varOp v op e, context =>
    match string_from_expr v with
    | none => none
    | some s =>
      match eval_expr e context with
      | none => none
      | some (.error err, context') => some (.error err, context')
      | some (.ok expr_val, context') =>
        match op with
        | .varOp .assign => some (update_var context' (.var s) expr_val)
        | _ => eval_var_op (.var s) op expr_val context'
  | .letE v _ e, context => assign_var v e context
  | .ifE c block, context => eval_if c block context
  | _, context => some (.error .notImplemented, context)
termination_by e _ => (sizeOf e, 0)
decreasing_by
  all_goals simp_wf
  all_goals apply Prod.Lex.left
  all_goals omega

/-- interpreter.rs eval_bin_expr: evaluates the left operand, then the right
operand, in that order (the ? propagates either failure); dispatches on the
pair of evaluated values, with TypeMismatch for any mixed pair. -/
def eval_bin_expr (l : Expr) (op : Op) (r : Expr) (context : Context) :
    Option (EvalRes Value × Context) :=
  match eval_expr l context with
  | none => none
  | some (.error e, context₁) => some (.error e, context₁)
  | some (.ok l_val, context₁) =>
    match eval_expr r context₁ with
    | none => none
    | some (.error e, context₂) => some (.error e, context₂)
    | some (.ok r_val, context₂) =>
      match l_val, r_val with
      | .num a, .num b => (eval_i32_expr a op b).map (fun res => (res, context₂))
      | .bool a, .bool b => some (eval_bool_expr a op b, context₂)
      | _, _ =>
        some (.error (.typeMismatch
          "Can not evaluate an operation between a bool and an i32."), context₂)
termination_by (sizeOf l + sizeOf r, 1)
decreasing_by
  all_goals
    have h1 : 0 < sizeOf l := by cases l <;> simp_arith
  all_goals
    have h2 : 0 < sizeOf r := by cases r <;> simp_arith
  all_goals apply Prod.Lex.left
  all_goals omega

/-- interpreter.rs assign_var: converts the target node to a name (panicking
on a non-Var node), evaluates the initializer, and inserts the binding into
the current (innermost) scope, returning the value. -/
def assign_var (v : Expr) (e : Expr) (context : Context) :
    Option (EvalRes Value × Context) :=
  match string_from_expr v with
  | none => none
  | some s =>
    match eval_expr e context with
    | none => none
    | some (.error err, context') => some (.error err, context')
    | some (.ok expr_val, context') =>
      match insert_to_current_scope context' (.var s) expr_val with
      | none => none
      | some context'' => some (.ok expr_val, context'')
termination_by (sizeOf e, 1)
decreasing_by
  all_goals apply Prod.Lex.right
  all_goals omega

/-- interpreter.rs eval_if: evaluates the condition; Bool(true) runs the block,
Bool(false) yields Ok(Bool(false)), anything else yields WrongType. -/
def eval_if (c : Expr) (block : List Expr) (context : Context) :
    Option (EvalRes Value × Context) :=
  match eval_expr c context with
  | none => none
  | some (.error err, context') => some (.error err, context')
  | some (.ok cond, context') =>
    match cond with
    | .bool true => eval_block block context'
    | .bool false => some (.ok (.bool false), context')
    | _ =>
      some (.error (.wrongType
        "Cannot evaluate condition. Not a boolean expression."), context')
termination_by (sizeOf c + sizeOf block, 1)
decreasing_by
  all_goals
    have h1 : 0 < sizeOf c := by cases c <;> simp_arith
  all_goals
    have h2 : 0 < sizeOf block := by cases block <;> simp_arith
  all_goals apply Prod.Lex.left
  all_goals omega

/-- interpreter.rs eval_block: pushes a new scope, then runs the statements in
order, keeping the last result; the pushed scope is never dropped (the
drop_current_scope call at line 202 is commented out). The result starts as
Err(NotFound "No expressions found.") so an empty block yields that error. -/
def eval_block (block : List Expr) (context : Context) :
    Option (EvalRes Value × Context) :=
  eval_block_loop block (.error (.notFound "No expressions found.")) (new_scope context)
termination_by (sizeOf block, 2)
decreasing_by
  all_goals apply Prod.Lex.right
  all_goals omega

/-- The for-loop of eval_block: res is overwritten by each statement's result;
note the source does not stop at an Err (no ? inside the loop), only a panic
stops it. -/
def eval_block_loop (block : List Expr) (res : EvalRes Value) (context : Context) :
    Option (EvalRes Value × Context) :=
  match block with
  | [] => some (res, context)
  | e :: rest =>
    match eval_expr e context with
    | none => none
    | some (res', context') => eval_block_loop rest res' context'
termination_by (sizeOf block, 1)
decreasing_by
  all_goals simp_wf
  all_goals apply Prod.Lex.left
  all_goals omega

end

/-! Theorems settling the claims. -/

/-- Helper for the assignment claim: when no scope contains the key,
update_var returns Err(NotFound) and leaves the context unchanged. -/
lemma update_var_not_found (ctx : Context) (key val : Value)
    (h : ∀ s ∈ ctx, scope_get s key = none) :
    update_var ctx key val = (.error (.notFound "Value not found in context."), ctx) := by
  induction ctx with
  | nil => rfl
  | cons s rest ih =>
    have hs : scope_get s key = none := h s (by simp)
    have hr := ih (fun t ht => h t (by simp [ht]))
    simp [update_var, hs, hr]

/-- Helper for the assignment claim: update_var overwrites the binding in the
innermost scope containing the key (all scopes inside it lack the key) and
touches no other scope. -/
lemma update_var_found (pre : Context) (s : Scope) (post : Context) (key val v : Value)
    (hpre : ∀ t ∈ pre, scope_get t key = none)
    (hs : scope_get s key = some v) :
    update_var (pre ++ s :: post) key val =
      (.ok val, pre ++ scope_insert key val s :: post) := by
  induction pre with
  | nil => simp [update_var, hs]
  | cons t rest ih =>
    have ht : scope_get t key = none := hpre t (by simp)
    have hr := ih (fun u hu => hpre u (by simp [hu]))
    simp [update_var, ht, hr]

/-- Helper: inserting over an existing key preserves the list of bound names
of a scope. -/
lemma scope_insert_keys (key val : Value) (s : Scope) (v : Value)
    (h : scope_get s key = some v) :
    (scope_insert key val s).map Prod.fst = s.map Prod.fst := by
  induction s with
  | nil => simp [scope_get] at h
  | cons p rest ih =>
    obtain ⟨k, w⟩ := p
    by_cases hk : k = key
    · simp [scope_insert, hk]
    · have h2 : scope_get rest key = some v := by simpa [scope_get, hk] using h
      simp [scope_insert, hk, ih h2]

/-- Helper: update_var never changes the bound names of any scope, so it never
creates a binding. -/
lemma update_var_keys (ctx : Context) (key val : Value) :
    ((update_var ctx key val).2).map (List.map Prod.fst) =
      ctx.map (List.map Prod.fst) := by
  induction ctx with
  | nil => rfl
  | cons s rest ih =>
    cases hs : scope_get s key with
    | some v => simp [update_var, hs, scope_insert_keys key val s v hs]
    | none =>
      cases hu : update_var rest key val with
      | mk r rest2 =>
        have hk := ih
        rw [hu] at hk
        simp [update_var, hs, hu, hk]

/-- Claim C9 (confirmed): plain assignment searches the scopes innermost to
outermost, overwrites the binding in the scope where it is found, fails with
NotFound (context unchanged) when the name is undeclared in every scope, and
never changes the set of bound names of any scope; the VarOp-Assign node
routes through update_var after evaluating the right-hand side. -/
theorem update_var_assignment_spec :
    (∀ ctx key val, (∀ s ∈ ctx, scope_get s key = none) →
      update_var ctx key val =
        (.error (.notFound "Value not found in context."), ctx)) ∧
    (∀ pre s post key val v, (∀ t ∈ pre, scope_get t key = none) →
      scope_get s key = some v →
      update_var (pre ++ s :: post) key val =
        (.ok val, pre ++ scope_insert key val s :: post)) ∧
    (∀ ctx key val,
      ((update_var ctx key val).2).map (List.map Prod.fst) =
        ctx.map (List.map Prod.fst)) ∧
    (∀ s e ctx rv ctx₁, eval_expr e ctx = some (.ok rv, ctx₁) →
      eval_expr (.varOp (.var s) (Op.varOp .assign) e) ctx =
        some (update_var ctx₁ (.var s) rv)) := by
  refine ⟨update_var_not_found, update_var_found, update_var_keys, ?_⟩
  intro s e ctx rv ctx₁ h
  simp [eval_expr, string_from_expr, h]

/-- Witness for C9: updating x inside [inner empty scope, outer scope binding
x to 5] rewrites the outer scope and returns Ok(8). -/
theorem update_var_assignment_spec_witness :
    update_var [[], [(Value.var "x", Value.num 5)]] (Value.var "x") (Value.num 8) =
      (.ok (Value.num 8), [[], [(Value.var "x", Value.num 8)]]) := by
  have h := update_var_assignment_spec.2.1 [[]] [(Value.var "x", Value.num 5)] []
    (Value.var "x") (Value.num 8) (Value.num 5)
    (by intro t ht; simp at ht; subst ht; rfl)
    (by simp [scope_get])
  simpa [scope_insert] using h

/-- Claim C7 (confirmed): eval_bin_expr evaluates the left operand first (a
left failure propagates untouched), then always evaluates the right operand in
the context produced by the left one — for every operator, including and/or,
so there is no short-circuiting — and when the two evaluated operands are not
both Num and not both Bool it fails with the TypeMismatch error of the
source. -/
theorem eval_bin_expr_order_and_type_mismatch :
    (∀ l op r ctx e ctx₁, eval_expr l ctx = some (.error e, ctx₁) →
      eval_bin_expr l op r ctx = some (.error e, ctx₁)) ∧
    (∀ l op r ctx lv ctx₁ e ctx₂,
      eval_expr l ctx = some (.ok lv, ctx₁) →
      eval_expr r ctx₁ = some (.error e, ctx₂) →
      eval_bin_expr l op r ctx = some (.error e, ctx₂)) ∧
    (∀ l op r ctx lv rv ctx₁ ctx₂,
      eval_expr l ctx = some (.ok lv, ctx₁) →
      eval_expr r ctx₁ = some (.ok rv, ctx₂) →
      ¬ ((∃ a b, lv = Value.num a ∧ rv = Value.num b) ∨
         (∃ a b, lv = Value.bool a ∧ rv = Value.bool b)) →
      eval_bin_expr l op r ctx =
        some (.error (.typeMismatch
          "Can not evaluate an operation between a bool and an i32."), ctx₂)) := by
  refine ⟨?_, ?_, ?_⟩
  · intro l op r ctx e ctx₁ h
    simp [eval_bin_expr, h]
  · intro l op r ctx lv ctx₁ e ctx₂ h1 h2
    simp [eval_bin_expr, h1, h2]
  · intro l op r ctx lv rv ctx₁ ctx₂ h1 h2 hmis
    cases lv with
    | num a =>
      cases rv with
      | num b => exact absurd (Or.inl ⟨a, b, rfl, rfl⟩) hmis
      | var s => simp [eval_bin_expr, h1, h2]
      | bool b => simp [eval_bin_expr, h1, h2]
    | var s =>
      cases rv <;> simp [eval_bin_expr, h1, h2]
    | bool a =>
      cases rv with
      | num b => simp [eval_bin_expr, h1, h2]
      | var s => simp [eval_bin_expr, h1, h2]
      | bool b => exact absurd (Or.inr ⟨a, b, rfl, rfl⟩) hmis

/-- Witness for C7: or with a true left operand still evaluates the right
operand, whose NotFound failure becomes the result of the whole operation. -/
theorem eval_bin_expr_order_and_type_mismatch_witness :
    eval_bin_expr (Expr.bool true) (Op.boolOp BoolToken.or) (Expr.var "x") [[]] =
      some (.error (.notFound "Key not found in context scopes"), [[]]) :=
  eval_bin_expr_order_and_type_mismatch.2.1 (Expr.bool true) (Op.boolOp BoolToken.or)
    (Expr.var "x") [[]] (Value.bool true) [[]]
    (EvalErr.notFound "Key not found in context scopes") [[]]
    (by simp [eval_expr])
    (by simp [eval_expr, get_val, scope_get])

/-- Claim C1 (code_bug): eval_block never releases the scope it pushes, on any
exit path. Starting from a context of depth 1, a block whose statement fails
returns with depth 2, and so does a block that completes normally; the claim
says the depth returns to 1. -/
theorem eval_block_never_releases_scope :
    (eval_block [Expr.var "y"] [[]] =
      some (.error (.notFound "Key not found in context scopes"), [[], []])) ∧
    ((eval_block [Expr.var "y"] [[]]).map (fun p => p.2.length) = some 2) ∧
    (eval_block [Expr.num 1] [[]] = some (.ok (.num 1), [[], []])) ∧
    (([[]] : Context).length = 1) := by
  refine ⟨?_, ?_, ?_, rfl⟩ <;>
    simp [eval_block, eval_block_loop, eval_expr, get_val, scope_get, new_scope]

/-- Claim C2 (code_bug): division and remainder agree with truncated integer
division when the divisor is nonzero, but a zero divisor panics (none), it
does not produce a DivisionByZero failure — EvalErr has no such variant. -/
theorem eval_i32_expr_division_panics_on_zero :
    (eval_i32_expr 7 (Op.mathOp .division) 2 = some (.ok (.num 3))) ∧
    (eval_i32_expr (-7) (Op.mathOp .division) 2 = some (.ok (.num (-3)))) ∧
    (eval_i32_expr 7 (Op.mathOp .modulo) 2 = some (.ok (.num 1))) ∧
    (eval_i32_expr 1 (Op.mathOp .division) 0 = none) ∧
    (eval_i32_expr 1 (Op.mathOp .modulo) 0 = none) :=
  ⟨rfl, rfl, rfl, rfl, rfl⟩

/-- Claim C3 (code_bug): both "should not happen" conditions abort instead of
returning a typed failure: declaring through a non-Var target panics in the
From conversion, and declaring with an empty scope stack panics in
insert_to_current_scope; EvalErr has no InternalError variant. -/
theorem eval_expr_panics_on_internal_conditions :
    (eval_expr (.letE (.num 1) Ty.int32 (.num 2)) [[]] = none) ∧
    (eval_expr (.letE (.var "x") Ty.int32 (.num 2)) ([] : Context) = none) := by
  constructor <;>
    simp [eval_expr, assign_var, string_from_expr, insert_to_current_scope]

/-- Claim C4 (code_bug): a declaration never checks the declared type: binding
x declared as Bool to the integer 5 succeeds and stores Num 5, identically to
declaring it as Int32, where the claim requires a TypeMismatch failure. -/
theorem eval_expr_let_ignores_declared_type :
    (eval_expr (.letE (.var "x") Ty.bool (.num 5)) [[]] =
      some (.ok (.num 5), [[(Value.var "x", Value.num 5)]])) ∧
    (eval_expr (.letE (.var "x") Ty.int32 (.num 5)) [[]] =
      some (.ok (.num 5), [[(Value.var "x", Value.num 5)]])) := by
  constructor <;>
    simp [eval_expr, assign_var, string_from_expr, insert_to_current_scope, scope_insert]

/-- Claim C5 (code_bug): a conditional whose condition is false returns the
value Bool(false) itself, which is exactly the value returned by a taken
branch whose last statement evaluates to Bool(false) — no distinguished
absent-result marker exists. -/
theorem eval_if_false_reuses_bool_false :
    ((eval_if (.bool false) [.num 7] [[]]).map Prod.fst =
      some (.ok (Value.bool false))) ∧
    ((eval_if (.bool true) [.bool false] [[]]).map Prod.fst =
      some (.ok (Value.bool false))) := by
  constructor <;>
    simp [eval_if, eval_expr, eval_block, eval_block_loop, new_scope]

/-- Claim C6 (code_bug): and and or follow the standard truth tables for all
boolean operands, but not is unimplemented: it falls into the catch-all and
fails with WrongOp instead of producing the Bool negation. -/
theorem eval_bool_expr_truth_tables_missing_not :
    ∀ l r : Bool,
      eval_bool_expr l (Op.boolOp .and) r = .ok (.bool (l && r)) ∧
      eval_bool_expr l (Op.boolOp .or) r = .ok (.bool (l || r)) ∧
      eval_bool_expr l (Op.boolOp .not) r =
        .error (.wrongOp "Not a boolean operator.") :=
  fun _ _ => ⟨rfl, rfl, rfl⟩

/-- Claim C8 (code_bug): after declare x = 5, x += 3 yields 8 and updates the
binding in the scope where x was found (second conjunct: the innermost scope
is empty and stays empty), but a non-integer current value or right-hand value
panics in the Value-to-i32 conversion instead of failing with TypeMismatch. -/
theorem eval_var_op_compound_assignment_behavior :
    (eval_expr (.varOp (.var "x") (Op.varOp .plusEq) (.num 3))
        [[(Value.var "x", Value.num 5)]] =
      some (.ok (.num 8), [[(Value.var "x", Value.num 8)]])) ∧
    (eval_expr (.varOp (.var "x") (Op.varOp .plusEq) (.num 3))
        [[], [(Value.var "x", Value.num 5)]] =
      some (.ok (.num 8), [[], [(Value.var "x", Value.num 8)]])) ∧
    (eval_expr (.varOp (.var "x") (Op.varOp .plusEq) (.num 3))
        [[(Value.var "x", Value.bool true)]] = none) ∧
    (eval_expr (.varOp (.var "x") (Op.varOp .plusEq) (.bool true))
        [[(Value.var "x", Value.num 5)]] = none) := by
  refine ⟨?_, ?_, ?_, ?_⟩ <;>
    simp [eval_expr, string_from_expr, eval_var_op, get_val, scope_get,
          i32_from_value, update_var, scope_insert]

/-- Claim C10 (confirmed): evaluating an empty block pushes a fresh scope and
returns the NotFound failure the result variable is initialised with, never a
default value. -/
theorem eval_block_empty_returns_not_found :
    ∀ context : Context,
      eval_block [] context =
        some (.error (.notFound "No expressions found."), new_scope context) := by
  intro context
  simp [eval_block, eval_block_loop]

end SimpleRustc
